import Mathlib

/-!
Shallow embedding of the MarketPlay fixed-price marketplace
(`src/modules/FixedPrice.ts`, class `FixedPriceMarketplace`) and the atomic
transaction manager (`src/core/atomic.ts`, class `AtomicTransactionManager`).

External effects (asset-holding queries, opt-in calls, balance queries,
group submission, the wall clock `Date.now()`, and `algosdk.isValidAddress`)
are modelled as explicit oracle inputs.  JavaScript truthiness on the
optional fields is modelled faithfully: an optional string is truthy when it
is present and nonempty, an optional number is truthy when it is present and
nonzero.  Thrown `Error`s are modelled by an explicit error type; the
`try`/`catch` re-wrapping in the atomic manager is modelled by the
`purchaseFailed` / `groupFailed` wrapper constructors.
-/

namespace MarketPlay

/-- Listing lifecycle status, from the `Listing` interface:
`status: 'active' | 'sold' | 'cancelled'`. -/
inductive Status where
  | active
  | sold
  | cancelled
deriving DecidableEq, Repr

/-- The `Listing` record stored in the registry (interface `Listing`). -/
structure Listing where
  id : String
  assetId : Nat
  seller : String
  price : Int
  royaltyRecipient : Option String
  royaltyPercentage : Option Int
  createdAt : Nat
  status : Status
deriving DecidableEq, Repr

/-- The in-memory registry `listings: Map<string, Listing>`, as an
association list in insertion order (JavaScript `Map` iteration order). -/
abbrev Registry := List (String × Listing)

/-- `Map.get`: first (unique) binding of the key. -/
def mapGet : Registry → String → Option Listing
  | [], _ => none
  | (k', v') :: rest, k => if k' = k then some v' else mapGet rest k

/-- `Map.set`: replace in place if the key exists (JavaScript `Map.set`
keeps the original insertion position), otherwise append. -/
def mapSet : Registry → String → Listing → Registry
  | [], k, v => [(k, v)]
  | (k', v') :: rest, k, v =>
    if k' = k then (k, v) :: rest else (k', v') :: mapSet rest k v

/-- `Array.from(this.listings.values())`. -/
def listingValues (st : Registry) : List Listing :=
  st.map Prod.snd

/-- Error taxonomy of the thrown `Error`s (spec section 7). -/
inductive ErrorKind where
  | invalidArgument
  | preconditionFailed
  | notFound
  | invalidState
  | unauthorized
  | insufficientFunds
  | authorizationMismatch
  | externalFailure
deriving DecidableEq, Repr

/-- The `Error`s thrown by the marketplace and the atomic manager.
`purchaseFailed` / `groupFailed` are the catch-all re-wraps performed by
`marketplacePurchase` / `executeAtomicGroup`; `external` stands for an
error raised inside the external client. -/
inductive MarketError where
  | priceNotPositive
  | royaltyPctOutOfRange
  | invalidRoyaltyRecipient (addr : String)
  | sellerDoesNotOwnAsset (assetId : Nat)
  | listingNotFound (listingId : String)
  | listingNotActive (listingId : String)
  | sellerMismatch
  | onlySellerCanCancel
  | insufficientFunds (total : Int)
  | noTransactions
  | authorizationMismatch
  | external (msg : String)
  | purchaseFailed (cause : MarketError)
  | groupFailed (cause : MarketError)
deriving DecidableEq, Repr

/-- The message string of each thrown `Error`, as written in the source. -/
def MarketError.message : MarketError → String
  | .priceNotPositive => "Price must be positive"
  | .royaltyPctOutOfRange => "Royalty percentage must be 0-100"
  | .invalidRoyaltyRecipient a => "Invalid royalty recipient: " ++ a
  | .sellerDoesNotOwnAsset aid => "Seller does not own asset " ++ Nat.repr aid
  | .listingNotFound lid => "Listing " ++ lid ++ " not found"
  | .listingNotActive lid => "Listing " ++ lid ++ " is not active"
  | .sellerMismatch => "Seller account does not match listing"
  | .onlySellerCanCancel => "Only seller can cancel listing"
  | .insufficientFunds total =>
      "Insufficient balance. Need " ++ toString total ++ " microAlgos (including fees)"
  | .noTransactions => "No transactions provided"
  | .authorizationMismatch => "Number of transactions must match number of signers"
  | .external msg => msg
  | .purchaseFailed cause => "Marketplace purchase failed: " ++ cause.message
  | .groupFailed cause => "Atomic group execution failed: " ++ cause.message

/-- Spec-taxonomy classification of each error. -/
def MarketError.kind : MarketError → ErrorKind
  | .priceNotPositive => .invalidArgument
  | .royaltyPctOutOfRange => .invalidArgument
  | .invalidRoyaltyRecipient _ => .invalidArgument
  | .sellerDoesNotOwnAsset _ => .preconditionFailed
  | .listingNotFound _ => .notFound
  | .listingNotActive _ => .invalidState
  | .sellerMismatch => .invalidArgument
  | .onlySellerCanCancel => .unauthorized
  | .insufficientFunds _ => .insufficientFunds
  | .noTransactions => .invalidArgument
  | .authorizationMismatch => .authorizationMismatch
  | .external _ => .externalFailure
  | .purchaseFailed _ => .externalFailure
  | .groupFailed _ => .externalFailure

/-- `algosdk.ALGORAND_MIN_TX_FEE` (1000 microAlgos). -/
def ALGORAND_MIN_TX_FEE : Int := 1000

/-- JavaScript truthiness of an optional string (`undefined` and `""` are
falsy). -/
def strTruthy : Option String → Bool
  | none => false
  | some s => decide (s ≠ "")

/-- JavaScript truthiness of an optional number (`undefined` and `0` are
falsy). -/
def intTruthy : Option Int → Bool
  | none => false
  | some n => decide (n ≠ 0)

/-- `royaltyPercentage && (royaltyPercentage < 0 || royaltyPercentage > 100)`
from `listAsset`'s validation. -/
def royaltyPctInvalid : Option Int → Bool
  | none => false
  | some pct => decide (pct ≠ 0) && (decide (pct < 0) || decide (100 < pct))

/-- `royaltyRecipient && !algosdk.isValidAddress(royaltyRecipient)` from
`listAsset`'s validation; `validAddr` models `algosdk.isValidAddress`. -/
def royaltyRecipientInvalid (validAddr : String → Bool) : Option String → Bool
  | none => false
  | some r => decide (r ≠ "") && !(validAddr r)

/-- The royalty computed inside `buyAsset` and `calculateTotalCost`:
`if (listing.royaltyRecipient && listing.royaltyPercentage)
  royaltyAmount = Math.floor((listing.price * listing.royaltyPercentage) / 100)`.
`Math.floor` of the quotient is integer floor division (`Int.fdiv`). -/
def royaltyAmountOf (l : Listing) : Int :=
  match l.royaltyRecipient, l.royaltyPercentage with
  | some r, some pct =>
      if r ≠ "" ∧ pct ≠ 0 then Int.fdiv (l.price * pct) 100 else 0
  | _, _ => 0

/-- The generated listing id:
``listing_${assetId}_${Date.now()}`` with `now` the `Date.now()` value. -/
def mkListingId (assetId now : Nat) : String :=
  "listing_" ++ Nat.repr assetId ++ "_" ++ Nat.repr now

/-- Parameters of `listAsset` (the seller account contributes only its
address to the registry). -/
structure ListParams where
  seller : String
  assetId : Nat
  price : Int
  royaltyRecipient : Option String
  royaltyPercentage : Option Int
deriving DecidableEq, Repr

/-- Oracle inputs consumed by `listAsset`: `algosdk.isValidAddress`, the
result of `assets.getAssetHolding(seller.addr, assetId)` (amount held, or
`none` for a null holding), and the `Date.now()` value. -/
structure ListEnv where
  validAddr : String → Bool
  holdingQuery : Except MarketError (Option Nat)
  now : Nat

/-- `FixedPriceMarketplace.listAsset`.  Returns the thrown error or the new
listing id, together with the registry after the call (unchanged when the
call throws). -/
def listAsset (st : Registry) (p : ListParams) (env : ListEnv) :
    Except MarketError String × Registry :=
  if p.price ≤ 0 then (.error .priceNotPositive, st)
  else if royaltyPctInvalid p.royaltyPercentage then
    (.error .royaltyPctOutOfRange, st)
  else if royaltyRecipientInvalid env.validAddr p.royaltyRecipient then
    (.error (.invalidRoyaltyRecipient (p.royaltyRecipient.getD "")), st)
  else
    match env.holdingQuery with
    | .error e => (.error e, st)
    | .ok none => (.error (.sellerDoesNotOwnAsset p.assetId), st)
    | .ok (some amount) =>
      if amount = 0 then (.error (.sellerDoesNotOwnAsset p.assetId), st)
      else
        let listingId := mkListingId p.assetId env.now
        let listing : Listing :=
          { id := listingId, assetId := p.assetId, seller := p.seller,
            price := p.price, royaltyRecipient := p.royaltyRecipient,
            royaltyPercentage := p.royaltyPercentage, createdAt := env.now,
            status := .active }
        (.ok listingId, mapSet st listingId listing)

/-- Transaction type: payment or asset transfer. -/
inductive TxnType where
  | pay
  | axfer
deriving DecidableEq, Repr

/-- An unsigned transaction (leg) as built by the atomic manager. -/
structure Txn where
  typ : TxnType
  fromAddr : String
  toAddr : String
  amount : Int
  assetIndex : Option Nat
  note : Option String
deriving DecidableEq, Repr

/-- `algosdk.makePaymentTxnWithSuggestedParamsFromObject`. -/
def mkPayment (fromAddr toAddr : String) (amount : Int) (note : Option String) : Txn :=
  { typ := .pay, fromAddr := fromAddr, toAddr := toAddr, amount := amount,
    assetIndex := none, note := note }

/-- `algosdk.makeAssetTransferTxnWithSuggestedParamsFromObject`. -/
def mkAssetTransfer (fromAddr toAddr : String) (assetIndex : Nat) (amount : Int) : Txn :=
  { typ := .axfer, fromAddr := fromAddr, toAddr := toAddr, amount := amount,
    assetIndex := some assetIndex, note := none }

/-- A signed transaction: the leg together with the address whose secret key
produced the signature (`txn.signTxn(account.sk)`). -/
structure SignedTxn where
  txn : Txn
  signer : String
deriving DecidableEq, Repr

/-- Result of a successful `marketplacePurchase`: the grouped legs, the
signed legs in submission order, and the submission's transaction id. -/
structure PurchaseResult where
  txns : List Txn
  signed : List SignedTxn
  txId : String
deriving DecidableEq, Repr

/-- `AtomicTransactionManager.marketplacePurchase`.  `validAddr` models
`algosdk.isValidAddress`; `submit` models the result of
`sendRawTransaction(...).do()` followed by `waitForConfirmation`.  Every
error thrown inside the `try` block is re-wrapped by the `catch` as
`purchaseFailed` (message prefix `Marketplace purchase failed:`). -/
def marketplacePurchase (validAddr : String → Bool)
    (submit : Except MarketError String)
    (buyer seller : String) (assetId : Nat) (price : Int)
    (royaltyRecipient : Option String) (royaltyAmount : Option Int) :
    Except MarketError PurchaseResult :=
  let t1 := mkPayment buyer seller price none
  let t2 := mkAssetTransfer seller buyer assetId 1
  if strTruthy royaltyRecipient && intTruthy royaltyAmount
      && decide (0 < royaltyAmount.getD 0) then
    if !(validAddr (royaltyRecipient.getD "")) then
      .error (.purchaseFailed (.invalidRoyaltyRecipient (royaltyRecipient.getD "")))
    else
      let t3 := mkPayment buyer (royaltyRecipient.getD "") (royaltyAmount.getD 0)
        (some "Royalty payment")
      match submit with
      | .error e => .error (.purchaseFailed e)
      | .ok txId =>
        .ok { txns := [t1, t2, t3],
              signed := [⟨t1, buyer⟩, ⟨t2, seller⟩, ⟨t3, buyer⟩],
              txId := txId }
  else
    match submit with
    | .error e => .error (.purchaseFailed e)
    | .ok txId =>
      .ok { txns := [t1, t2],
            signed := [⟨t1, buyer⟩, ⟨t2, seller⟩],
            txId := txId }

/-- Oracle inputs consumed by `buyAsset`: the opt-in check
(`accountInformation(...).assets.some(...)`), the `assets.optIn` call, the
buyer's balance (`accountInformation(address).amount` inside
`payments.hasSufficientBalance`), `algosdk.isValidAddress`, and the group
submission result. -/
structure BuyEnv where
  optInQuery : Except MarketError Bool
  optInCall : Except MarketError Unit
  balanceQuery : Except MarketError Int
  validAddr : String → Bool
  submit : Except MarketError String

/-- `FixedPriceMarketplace.buyAsset`.  Returns the thrown error or the
purchase result, together with the registry after the call (unchanged when
the call throws). -/
def buyAsset (st : Registry) (buyer listingId sellerAddr : String) (env : BuyEnv) :
    Except MarketError PurchaseResult × Registry :=
  match mapGet st listingId with
  | none => (.error (.listingNotFound listingId), st)
  | some listing =>
    if listing.status ≠ Status.active then
      (.error (.listingNotActive listingId), st)
    else if sellerAddr ≠ listing.seller then
      (.error .sellerMismatch, st)
    else
      match env.optInQuery with
      | .error e => (.error e, st)
      | .ok hasOptedIn =>
        match (if hasOptedIn then Except.ok () else env.optInCall) with
        | .error e => (.error e, st)
        | .ok _ =>
          let royaltyAmount := royaltyAmountOf listing
          let totalCost := listing.price + royaltyAmount + ALGORAND_MIN_TX_FEE * 2
          match env.balanceQuery with
          | .error e => (.error e, st)
          | .ok balance =>
            if balance < totalCost then
              (.error (.insufficientFunds totalCost), st)
            else
              match marketplacePurchase env.validAddr env.submit buyer
                  listing.seller listing.assetId listing.price
                  listing.royaltyRecipient (some royaltyAmount) with
              | .error e => (.error e, st)
              | .ok res =>
                (.ok res, mapSet st listingId { listing with status := Status.sold })

/-- `FixedPriceMarketplace.cancelListing`. -/
def cancelListing (st : Registry) (sellerAddr listingId : String) :
    Except MarketError Unit × Registry :=
  match mapGet st listingId with
  | none => (.error (.listingNotFound listingId), st)
  | some listing =>
    if listing.seller ≠ sellerAddr then (.error .onlySellerCanCancel, st)
    else if listing.status ≠ Status.active then
      (.error (.listingNotActive listingId), st)
    else
      (.ok (), mapSet st listingId { listing with status := Status.cancelled })

/-- `FixedPriceMarketplace.getListing`. -/
def getListing (st : Registry) (listingId : String) : Option Listing :=
  mapGet st listingId

/-- `FixedPriceMarketplace.getActiveListings`. -/
def getActiveListings (st : Registry) : List Listing :=
  (listingValues st).filter (fun l => decide (l.status = Status.active))

/-- `FixedPriceMarketplace.getListingsBySeller`. -/
def getListingsBySeller (st : Registry) (sellerAddress : String) : List Listing :=
  (listingValues st).filter (fun l => decide (l.seller = sellerAddress))

/-- `FixedPriceMarketplace.getListingsByAsset`. -/
def getListingsByAsset (st : Registry) (assetId : Nat) : List Listing :=
  (listingValues st).filter (fun l => decide (l.assetId = assetId))

/-- `FixedPriceMarketplace.calculateTotalCost`: throws on an unknown id,
otherwise price + royalty (same both-truthy condition as `buyAsset`) +
`ALGORAND_MIN_TX_FEE * 2`. -/
def calculateTotalCost (st : Registry) (listingId : String) :
    Except MarketError Int :=
  match mapGet st listingId with
  | none => .error (.listingNotFound listingId)
  | some listing =>
    .ok (listing.price + royaltyAmountOf listing + ALGORAND_MIN_TX_FEE * 2)

/-- `AtomicTransactionManager.executeAtomicGroup`.  Every error thrown
inside the `try` block is re-wrapped by the `catch` as `groupFailed`
(message prefix `Atomic group execution failed:`). -/
def executeAtomicGroup (transactions : List Txn) (signers : List String)
    (submit : Except MarketError String) :
    Except MarketError (List SignedTxn × String) :=
  if transactions.length = 0 then .error (.groupFailed .noTransactions)
  else if transactions.length ≠ signers.length then
    .error (.groupFailed .authorizationMismatch)
  else
    match submit with
    | .error e => .error (.groupFailed e)
    | .ok txId =>
      .ok (List.zipWith (fun t s => SignedTxn.mk t s) transactions signers, txId)

/-- One marketplace operation on the registry (any arguments, any oracle
results, successful or failed). -/
inductive Step : Registry → Registry → Prop where
  | listStep : ∀ st p env, Step st (listAsset st p env).2
  | buyStep : ∀ st buyer lid sa env, Step st (buyAsset st buyer lid sa env).2
  | cancelStep : ∀ st sa lid, Step st (cancelListing st sa lid).2

/-- Registry states reachable from the empty registry by marketplace
operations. -/
def Reachable (st : Registry) : Prop :=
  Relation.ReflTransGen Step [] st

instance {e a : Type} [DecidableEq e] [DecidableEq a] : DecidableEq (Except e a) := fun x y =>
  match x, y with
  | .ok u, .ok v => if h : u = v then .isTrue (by rw [h]) else .isFalse (by simp [h])
  | .error u, .error v => if h : u = v then .isTrue (by rw [h]) else .isFalse (by simp [h])
  | .ok _, .error _ => .isFalse (by simp)
  | .error _, .ok _ => .isFalse (by simp)

/-- Numeric value of a decimal digit character. -/
def charDigitVal (c : Char) : Nat := c.toNat - 48

/-- Decode a decimal digit string (most significant first). -/
def decodeDigits (ds : List Char) : Nat :=
  ds.foldl (fun a c => 10 * a + charDigitVal c) 0

lemma digitChar_spec : ∀ m, m < 10 →
    charDigitVal (Nat.digitChar m) = m ∧ Nat.digitChar m ≠ '_' := by decide

lemma toDigitsCore_acc (fuel : Nat) : ∀ n acc,
    Nat.toDigitsCore 10 fuel n acc = Nat.toDigitsCore 10 fuel n [] ++ acc := by
  induction fuel with
  | zero => intro n acc; simp [Nat.toDigitsCore]
  | succ f ih =>
    intro n acc
    simp only [Nat.toDigitsCore]
    by_cases h : n / 10 = 0
    · simp [h]
    · simp only [h, if_false]
      rw [ih (n / 10) (Nat.digitChar (n % 10) :: acc),
        ih (n / 10) [Nat.digitChar (n % 10)]]
      simp

lemma toDigitsCore_fuel : ∀ n f1 f2 acc, n < f1 → n < f2 →
    Nat.toDigitsCore 10 f1 n acc = Nat.toDigitsCore 10 f2 n acc := by
  intro n
  induction n using Nat.strong_induction_on with
  | _ n ih =>
    intro f1 f2 acc h1 h2
    match f1, f2 with
    | f1 + 1, f2 + 1 =>
      simp only [Nat.toDigitsCore]
      by_cases h : n / 10 = 0
      · simp [h]
      · simp only [h, if_false]
        have hn : 0 < n := by
          rcases Nat.eq_zero_or_pos n with h0 | h0
          · subst h0; simp at h
          · exact h0
        have hd : n / 10 < n := Nat.div_lt_self hn (by norm_num)
        exact ih (n / 10) hd _ _ _
          (Nat.lt_of_lt_of_le hd (Nat.lt_succ_iff.mp h1))
          (Nat.lt_of_lt_of_le hd (Nat.lt_succ_iff.mp h2))

lemma toDigits_eq (n : Nat) : Nat.toDigits 10 n =
    (if n / 10 = 0 then [] else Nat.toDigits 10 (n / 10)) ++ [Nat.digitChar (n % 10)] := by
  show Nat.toDigitsCore 10 (n + 1) n [] = _
  simp only [Nat.toDigitsCore]
  by_cases h : n / 10 = 0
  · simp [h]
  · simp only [h, if_false]
    have hn : 0 < n := by
      rcases Nat.eq_zero_or_pos n with h0 | h0
      · subst h0; simp at h
      · exact h0
    have hd : n / 10 < n := Nat.div_lt_self hn (by norm_num)
    rw [toDigitsCore_acc, toDigitsCore_fuel (n / 10) n (n / 10 + 1) [] hd (Nat.lt_succ_self _)]
    rfl

lemma decode_append_digit (ds : List Char) (c : Char) :
    decodeDigits (ds ++ [c]) = 10 * decodeDigits ds + charDigitVal c := by
  simp [decodeDigits, List.foldl_append]

lemma decode_toDigits : ∀ n, decodeDigits (Nat.toDigits 10 n) = n := by
  intro n
  induction n using Nat.strong_induction_on with
  | _ n ih =>
    rw [toDigits_eq]
    by_cases h : n / 10 = 0
    · have hlt : n < 10 := by omega
      rw [h, if_pos rfl]
      simp only [List.nil_append]
      have hv := (digitChar_spec (n % 10) (Nat.mod_lt _ (by norm_num))).1
      simp only [decodeDigits, List.foldl, Nat.mul_zero, Nat.zero_add]
      rw [hv]
      omega
    · have hn : 0 < n := by
        rcases Nat.eq_zero_or_pos n with h0 | h0
        · subst h0; simp at h
        · exact h0
      rw [if_neg h, decode_append_digit, ih (n / 10) (Nat.div_lt_self hn (by norm_num)),
        (digitChar_spec (n % 10) (Nat.mod_lt _ (by norm_num))).1]
      exact Nat.div_add_mod n 10

lemma toDigits_no_underscore : ∀ n, '_' ∉ Nat.toDigits 10 n := by
  intro n
  induction n using Nat.strong_induction_on with
  | _ n ih =>
    rw [toDigits_eq]
    intro hmem
    rcases List.mem_append.mp hmem with hl | hr
    · by_cases h : n / 10 = 0
      · rw [h, if_pos rfl] at hl; simp at hl
      · rw [if_neg h] at hl
        have hn : 0 < n := by
          rcases Nat.eq_zero_or_pos n with h0 | h0
          · subst h0; simp at h
          · exact h0
        exact ih (n / 10) (Nat.div_lt_self hn (by norm_num)) hl
    · have := (digitChar_spec (n % 10) (Nat.mod_lt _ (by norm_num))).2
      simp at hr
      exact this hr.symm

lemma repr_data (n : Nat) : (Nat.repr n).data = Nat.toDigits 10 n := rfl

lemma repr_inj {a b : Nat} (h : Nat.repr a = Nat.repr b) : a = b := by
  have hd : (Nat.repr a).data = (Nat.repr b).data := congrArg String.data h
  rw [repr_data, repr_data] at hd
  have := congrArg decodeDigits hd
  rwa [decode_toDigits, decode_toDigits] at this

lemma sep_split : ∀ (xs1 : List Char) (ys1 xs2 ys2 : List Char), '_' ∉ xs1 → '_' ∉ xs2 →
    xs1 ++ '_' :: ys1 = xs2 ++ '_' :: ys2 → xs1 = xs2 ∧ ys1 = ys2 := by
  intro xs1
  induction xs1 with
  | nil =>
    intro ys1 xs2 ys2 _ h2 h
    cases xs2 with
    | nil => simpa using h
    | cons a t =>
      simp only [List.nil_append, List.cons_append, List.cons.injEq] at h
      exact absurd (h.1 ▸ List.mem_cons_self a t) h2
  | cons a t ih =>
    intro ys1 xs2 ys2 h1 h2 h
    cases xs2 with
    | nil =>
      simp only [List.cons_append, List.nil_append, List.cons.injEq] at h
      exact absurd (h.1 ▸ List.mem_cons_self a t) h1
    | cons b u =>
      simp only [List.cons_append, List.cons.injEq] at h
      obtain ⟨hab, hrest⟩ := h
      have := ih ys1 u ys2 (fun hm => h1 (List.mem_cons_of_mem a hm))
        (fun hm => h2 (List.mem_cons_of_mem b hm)) hrest
      exact ⟨by rw [hab, this.1], this.2⟩

lemma mkListingId_data (a n : Nat) : (mkListingId a n).data =
    "listing_".data ++ (Nat.toDigits 10 a ++ '_' :: Nat.toDigits 10 n) := by
  show ("listing_" ++ Nat.repr a ++ "_" ++ Nat.repr n).data = _
  have happ : ∀ s t : String, (s ++ t).data = s.data ++ t.data := fun s t => rfl
  rw [happ, happ, happ, repr_data, repr_data]
  simp

lemma mkListingId_inj {a1 n1 a2 n2 : Nat}
    (h : mkListingId a1 n1 = mkListingId a2 n2) : a1 = a2 ∧ n1 = n2 := by
  have hd := congrArg String.data h
  rw [mkListingId_data, mkListingId_data] at hd
  have hcancel : Nat.toDigits 10 a1 ++ '_' :: Nat.toDigits 10 n1 =
      Nat.toDigits 10 a2 ++ '_' :: Nat.toDigits 10 n2 :=
    List.append_cancel_left hd
  have := sep_split _ _ _ _ (toDigits_no_underscore a1) (toDigits_no_underscore a2) hcancel
  constructor
  · have h1 := congrArg decodeDigits this.1
    rwa [decode_toDigits, decode_toDigits] at h1
  · have h2 := congrArg decodeDigits this.2
    rwa [decode_toDigits, decode_toDigits] at h2


lemma mapGet_mem {st : Registry} {k : String} {v : Listing}
    (h : mapGet st k = some v) : v ∈ listingValues st := by
  induction st with
  | nil => simp [mapGet] at h
  | cons hd tl ih =>
    obtain ⟨k', v'⟩ := hd
    by_cases hk : k' = k
    · simp [mapGet, hk] at h
      simp [listingValues, h]
    · simp only [mapGet, if_neg hk] at h
      simp [listingValues]
      exact Or.inr (by simpa [listingValues] using ih h)

lemma values_mapSet {st : Registry} {k : String} {v l : Listing}
    (h : l ∈ listingValues (mapSet st k v)) : l = v ∨ l ∈ listingValues st := by
  induction st with
  | nil => simpa [mapSet, listingValues] using h
  | cons hd tl ih =>
    obtain ⟨k', v'⟩ := hd
    by_cases hk : k' = k
    · simp only [mapSet, if_pos hk, listingValues, List.map_cons, List.mem_cons] at h
      rcases h with h | h
      · exact Or.inl h
      · exact Or.inr (by simp [listingValues, List.mem_cons]; right; simpa [listingValues] using h)
    · simp only [mapSet, if_neg hk, listingValues, List.map_cons, List.mem_cons] at h
      rcases h with h | h
      · exact Or.inr (by simp [listingValues, h])
      · rcases ih (by simpa [listingValues] using h) with h' | h'
        · exact Or.inl h'
        · exact Or.inr (by simp [listingValues]; right; simpa [listingValues] using h')

lemma mapSet_length_of_none {st : Registry} {k : String} {v : Listing}
    (h : mapGet st k = none) : (mapSet st k v).length = st.length + 1 := by
  induction st with
  | nil => simp [mapSet]
  | cons hd tl ih =>
    obtain ⟨k', v'⟩ := hd
    by_cases hk : k' = k
    · simp [mapGet, hk] at h
    · simp only [mapGet, if_neg hk] at h
      simp [mapSet, if_neg hk, ih h]

lemma mapSet_length_of_some {st : Registry} {k : String} {v w : Listing}
    (h : mapGet st k = some w) : (mapSet st k v).length = st.length := by
  induction st with
  | nil => simp [mapGet] at h
  | cons hd tl ih =>
    obtain ⟨k', v'⟩ := hd
    by_cases hk : k' = k
    · simp [mapSet, hk]
    · simp only [mapGet, if_neg hk] at h
      simp [mapSet, if_neg hk, ih h]

lemma listAsset_spec (st : Registry) (p : ListParams) (env : ListEnv) :
    (∃ e, listAsset st p env = (.error e, st)) ∨
    (¬ p.price ≤ 0 ∧ listAsset st p env = (.ok (mkListingId p.assetId env.now),
       mapSet st (mkListingId p.assetId env.now)
         { id := mkListingId p.assetId env.now, assetId := p.assetId, seller := p.seller,
           price := p.price, royaltyRecipient := p.royaltyRecipient,
           royaltyPercentage := p.royaltyPercentage, createdAt := env.now,
           status := .active })) := by
  unfold listAsset
  split
  · exact Or.inl ⟨_, rfl⟩
  · split
    · exact Or.inl ⟨_, rfl⟩
    · split
      · exact Or.inl ⟨_, rfl⟩
      · split
        · exact Or.inl ⟨_, rfl⟩
        · exact Or.inl ⟨_, rfl⟩
        · split
          · exact Or.inl ⟨_, rfl⟩
          · exact Or.inr ⟨by assumption, rfl⟩

lemma marketplacePurchase_ok_submit {va : String → Bool} {submit : Except MarketError String}
    {b s : String} {aid : Nat} {pr : Int} {rr : Option String} {ra : Option Int}
    {res : PurchaseResult}
    (h : marketplacePurchase va submit b s aid pr rr ra = .ok res) :
    submit = .ok res.txId := by
  unfold marketplacePurchase at h
  split at h
  · split at h
    · exact absurd h (by simp)
    · split at h
      · exact absurd h (by simp)
      · simp only [Except.ok.injEq] at h
        subst h
        rfl
  · split at h
    · exact absurd h (by simp)
    · simp only [Except.ok.injEq] at h
      subst h
      rfl

lemma buyAsset_spec (st : Registry) (buyer lid sa : String) (env : BuyEnv) :
    (∃ e, buyAsset st buyer lid sa env = (.error e, st)) ∨
    (∃ l res, mapGet st lid = some l ∧ l.status = Status.active ∧
      marketplacePurchase env.validAddr env.submit buyer l.seller l.assetId l.price
        l.royaltyRecipient (some (royaltyAmountOf l)) = .ok res ∧
      buyAsset st buyer lid sa env =
        (.ok res, mapSet st lid { l with status := Status.sold })) := by
  unfold buyAsset
  split
  · exact Or.inl ⟨_, rfl⟩
  · rename_i l hget
    split
    · exact Or.inl ⟨_, rfl⟩
    · rename_i hstat
      split
      · exact Or.inl ⟨_, rfl⟩
      · split
        · exact Or.inl ⟨_, rfl⟩
        · split
          · exact Or.inl ⟨_, rfl⟩
          · split
            · exact Or.inl ⟨_, rfl⟩
            · dsimp only []
              split
              · exact Or.inl ⟨_, rfl⟩
              · split
                · exact Or.inl ⟨_, rfl⟩
                · rename_i res hpurch
                  refine Or.inr ⟨l, res, hget, by simpa using hstat, hpurch, rfl⟩

lemma cancelListing_spec (st : Registry) (sa lid : String) :
    (∃ e, cancelListing st sa lid = (.error e, st)) ∨
    (∃ l, mapGet st lid = some l ∧ l.status = Status.active ∧ l.seller = sa ∧
      cancelListing st sa lid = (.ok (), mapSet st lid { l with status := Status.cancelled })) := by
  unfold cancelListing
  split
  · exact Or.inl ⟨_, rfl⟩
  · rename_i l hget
    split
    · exact Or.inl ⟨_, rfl⟩
    · rename_i hsell
      split
      · exact Or.inl ⟨_, rfl⟩
      · rename_i hstat
        refine Or.inr ⟨l, hget, by simpa using hstat, by simpa using hsell, rfl⟩


lemma buyAsset_notFound {st : Registry} {buyer lid sa : String} {env : BuyEnv}
    (h : mapGet st lid = none) :
    buyAsset st buyer lid sa env = (.error (.listingNotFound lid), st) := by
  unfold buyAsset
  simp only [h]

lemma buyAsset_notActive {st : Registry} {buyer lid sa : String} {env : BuyEnv} {l : Listing}
    (h : mapGet st lid = some l) (hstat : l.status ≠ Status.active) :
    buyAsset st buyer lid sa env = (.error (.listingNotActive lid), st) := by
  unfold buyAsset
  simp only [h]
  rw [if_pos hstat]

lemma cancelListing_notActive {st : Registry} {sa lid : String} {l : Listing}
    (h : mapGet st lid = some l) (hsell : l.seller = sa) (hstat : l.status ≠ Status.active) :
    cancelListing st sa lid = (.error (.listingNotActive lid), st) := by
  unfold cancelListing
  simp only [h]
  rw [if_neg (by simp [hsell]), if_pos hstat]

lemma cancelListing_unauthorized {st : Registry} {sa lid : String} {l : Listing}
    (h : mapGet st lid = some l) (hsell : l.seller ≠ sa) :
    cancelListing st sa lid = (.error .onlySellerCanCancel, st) := by
  unfold cancelListing
  simp only [h]
  rw [if_pos hsell]

lemma buyAsset_funds {st : Registry} {buyer lid sa : String} {env : BuyEnv} {l : Listing}
    {bal : Int}
    (hget : mapGet st lid = some l) (hstat : l.status = Status.active)
    (hsa : sa = l.seller) (hopt : env.optInQuery = .ok true)
    (hbal : env.balanceQuery = .ok bal)
    (hlt : bal < l.price + royaltyAmountOf l + ALGORAND_MIN_TX_FEE * 2) :
    buyAsset st buyer lid sa env =
      (.error (.insufficientFunds (l.price + royaltyAmountOf l + ALGORAND_MIN_TX_FEE * 2)), st) := by
  subst hsa
  unfold buyAsset
  simp only [hget, hstat, hopt, hbal]
  simp [hlt]

lemma buyAsset_purchaseError {st : Registry} {buyer lid sa : String} {env : BuyEnv} {l : Listing}
    {bal : Int} {e : MarketError}
    (hget : mapGet st lid = some l) (hstat : l.status = Status.active)
    (hsa : sa = l.seller) (hopt : env.optInQuery = .ok true)
    (hbal : env.balanceQuery = .ok bal)
    (hge : ¬ bal < l.price + royaltyAmountOf l + ALGORAND_MIN_TX_FEE * 2)
    (hpurch : marketplacePurchase env.validAddr env.submit buyer l.seller l.assetId l.price
      l.royaltyRecipient (some (royaltyAmountOf l)) = .error e) :
    buyAsset st buyer lid sa env = (.error e, st) := by
  subst hsa
  unfold buyAsset
  simp only [hget, hstat, hopt, hbal]
  simp [hge, hpurch]


/-- Claim C1: in `buyAsset` the listing's status is set to `sold` only after
`atomic.marketplacePurchase` succeeds; any thrown error (from the settlement
step or any earlier check) is propagated to the caller and leaves the
registry unchanged. -/
theorem buy_sold_only_after_settlement :
    (∀ st buyer lid sa env res st',
        buyAsset st buyer lid sa env = (.ok res, st') →
        env.submit = .ok res.txId ∧
        ∃ l, mapGet st lid = some l ∧ l.status = Status.active ∧
          st' = mapSet st lid { l with status := Status.sold })
    ∧ (∀ st buyer lid sa env e st',
        buyAsset st buyer lid sa env = (.error e, st') → st' = st)
    ∧ (∀ st buyer lid sa env l bal e,
        mapGet st lid = some l → l.status = Status.active → sa = l.seller →
        env.optInQuery = .ok true → env.balanceQuery = .ok bal →
        ¬ bal < l.price + royaltyAmountOf l + ALGORAND_MIN_TX_FEE * 2 →
        marketplacePurchase env.validAddr env.submit buyer l.seller l.assetId l.price
          l.royaltyRecipient (some (royaltyAmountOf l)) = .error e →
        buyAsset st buyer lid sa env = (.error e, st)) := by
  refine ⟨?_, ?_, ?_⟩
  · intro st buyer lid sa env res st' h
    rcases buyAsset_spec st buyer lid sa env with ⟨e, heq⟩ | ⟨l, res0, hget, hstat, hpurch, heq⟩
    · rw [heq] at h
      exact absurd (congrArg Prod.fst h) (by simp)
    · rw [heq] at h
      obtain ⟨hres, hst⟩ := Prod.mk.injEq .. ▸ h
      obtain rfl : res0 = res := by simpa using congrArg Prod.fst h
      refine ⟨marketplacePurchase_ok_submit hpurch, l, hget, hstat, ?_⟩
      simpa using (congrArg Prod.snd h).symm
  · intro st buyer lid sa env e st' h
    rcases buyAsset_spec st buyer lid sa env with ⟨e0, heq⟩ | ⟨l, res0, hget, hstat, hpurch, heq⟩
    · rw [heq] at h
      simpa using (congrArg Prod.snd h).symm
    · rw [heq] at h
      exact absurd (congrArg Prod.fst h) (by simp)
  · intro st buyer lid sa env l bal e hget hstat hsa hopt hbal hge hpurch
    exact buyAsset_purchaseError hget hstat hsa hopt hbal hge hpurch

/-- Witness for C1: a concrete settlement failure is propagated unchanged
and leaves the registry unchanged. -/
theorem buy_sold_only_after_settlement_witness :
    buyAsset [("listing_7_5", ⟨"listing_7_5", 7, "S", 10, none, none, 5, .active⟩)]
      "B" "listing_7_5" "S"
      ⟨.ok true, .ok (), .ok 1000000, fun _ => true, .error (.external "node down")⟩ =
      (.error (.purchaseFailed (.external "node down")),
       [("listing_7_5", ⟨"listing_7_5", 7, "S", 10, none, none, 5, .active⟩)]) :=
  buy_sold_only_after_settlement.2.2
    [("listing_7_5", ⟨"listing_7_5", 7, "S", 10, none, none, 5, .active⟩)]
    "B" "listing_7_5" "S"
    ⟨.ok true, .ok (), .ok 1000000, fun _ => true, .error (.external "node down")⟩
    ⟨"listing_7_5", 7, "S", 10, none, none, 5, .active⟩ 1000000
    (.purchaseFailed (.external "node down"))
    rfl rfl rfl rfl rfl (by decide) rfl

/-- Counterexample to claim C2 as stated: a listing whose status is `sold`
has its registry entry reset to a fresh `active` listing by a later
`listAsset` call whose generated id (same asset, same `Date.now()` value)
collides with it, so the stored status at that id does change back. -/
theorem sold_status_reset_by_colliding_relist :
    getListing [("listing_7_5", ⟨"listing_7_5", 7, "S", 10, none, none, 5, .sold⟩)]
      "listing_7_5" = some ⟨"listing_7_5", 7, "S", 10, none, none, 5, .sold⟩ ∧
    listAsset [("listing_7_5", ⟨"listing_7_5", 7, "S", 10, none, none, 5, .sold⟩)]
      ⟨"S", 7, 10, none, none⟩ ⟨fun _ => true, .ok (some 1), 5⟩ =
      (.ok "listing_7_5",
       [("listing_7_5", ⟨"listing_7_5", 7, "S", 10, none, none, 5, .active⟩)]) ∧
    getListing [("listing_7_5", ⟨"listing_7_5", 7, "S", 10, none, none, 5, .active⟩)]
      "listing_7_5" = some ⟨"listing_7_5", 7, "S", 10, none, none, 5, .active⟩ ∧
    Status.sold ≠ Status.active := by
  refine ⟨rfl, rfl, rfl, by decide⟩

/-- Claim C2 (amended): `buyAsset` on a non-active listing always fails with
the `InvalidState`-kind error and changes nothing; `cancelListing` by the
listing's seller on a non-active listing likewise; `cancelListing` by
anyone else fails with `Unauthorized` (the identity check precedes the
state check) and changes nothing; the only registry changes `buyAsset` or
`cancelListing` ever perform are `active → sold` resp. `active → cancelled`
on the targeted id.  (`listAsset` may however overwrite the entry at a
colliding generated id with a fresh `active` listing.) -/
theorem status_transitions_monotonic_amended :
    (∀ st buyer lid sa env l, mapGet st lid = some l → l.status ≠ Status.active →
        buyAsset st buyer lid sa env = (.error (.listingNotActive lid), st) ∧
        (MarketError.listingNotActive lid).kind = ErrorKind.invalidState)
    ∧ (∀ st sa lid l, mapGet st lid = some l → l.seller = sa → l.status ≠ Status.active →
        cancelListing st sa lid = (.error (.listingNotActive lid), st) ∧
        (MarketError.listingNotActive lid).kind = ErrorKind.invalidState)
    ∧ (∀ st sa lid l, mapGet st lid = some l → l.seller ≠ sa →
        cancelListing st sa lid = (.error .onlySellerCanCancel, st) ∧
        MarketError.onlySellerCanCancel.kind = ErrorKind.unauthorized)
    ∧ (∀ st buyer lid sa env r st', buyAsset st buyer lid sa env = (r, st') →
        st' = st ∨ ∃ l, mapGet st lid = some l ∧ l.status = Status.active ∧
          st' = mapSet st lid { l with status := Status.sold })
    ∧ (∀ st sa lid r st', cancelListing st sa lid = (r, st') →
        st' = st ∨ ∃ l, mapGet st lid = some l ∧ l.status = Status.active ∧
          st' = mapSet st lid { l with status := Status.cancelled }) := by
  refine ⟨?_, ?_, ?_, ?_, ?_⟩
  · intro st buyer lid sa env l hget hstat
    exact ⟨buyAsset_notActive hget hstat, rfl⟩
  · intro st sa lid l hget hsell hstat
    exact ⟨cancelListing_notActive hget hsell hstat, rfl⟩
  · intro st sa lid l hget hsell
    exact ⟨cancelListing_unauthorized hget hsell, rfl⟩
  · intro st buyer lid sa env r st' h
    rcases buyAsset_spec st buyer lid sa env with ⟨e, heq⟩ | ⟨l, res0, hget, hstat, _, heq⟩
    · rw [heq] at h
      exact Or.inl (by simpa using (congrArg Prod.snd h).symm)
    · rw [heq] at h
      exact Or.inr ⟨l, hget, hstat, by simpa using (congrArg Prod.snd h).symm⟩
  · intro st sa lid r st' h
    rcases cancelListing_spec st sa lid with ⟨e, heq⟩ | ⟨l, hget, hstat, hsell, heq⟩
    · rw [heq] at h
      exact Or.inl (by simpa using (congrArg Prod.snd h).symm)
    · rw [heq] at h
      exact Or.inr ⟨l, hget, hstat, by simpa using (congrArg Prod.snd h).symm⟩

/-- Witness for the amended C2: buying a concrete `sold` listing fails with
the `InvalidState`-kind error and leaves the registry unchanged. -/
theorem status_transitions_monotonic_amended_witness :
    buyAsset [("L", ⟨"L", 7, "S", 10, none, none, 5, .sold⟩)] "B" "L" "S"
      ⟨.ok true, .ok (), .ok 1000000, fun _ => true, .ok "TX"⟩ =
      (.error (.listingNotActive "L"), [("L", ⟨"L", 7, "S", 10, none, none, 5, .sold⟩)]) ∧
    (MarketError.listingNotActive "L").kind = ErrorKind.invalidState :=
  status_transitions_monotonic_amended.1
    [("L", ⟨"L", 7, "S", 10, none, none, 5, .sold⟩)] "B" "L" "S"
    ⟨.ok true, .ok (), .ok 1000000, fun _ => true, .ok "TX"⟩
    ⟨"L", 7, "S", 10, none, none, 5, .sold⟩ rfl (by decide)

/-- Claim C9: `listAsset` with non-positive price always fails with the
`InvalidArgument`-kind error `Price must be positive` and stores nothing;
consequently every listing ever stored in a reachable registry has positive
price. -/
theorem price_positive_enforced :
    (∀ st p env, p.price ≤ 0 →
        listAsset st p env = (.error .priceNotPositive, st) ∧
        MarketError.priceNotPositive.kind = ErrorKind.invalidArgument)
    ∧ (∀ st, Reachable st → ∀ l ∈ listingValues st, 0 < l.price) := by
  constructor
  · intro st p env h
    constructor
    · unfold listAsset
      rw [if_pos h]
    · rfl
  · intro st h
    induction h with
    | refl => intro l hl; simp [listingValues] at hl
    | tail hsteps hstep ih =>
      rename_i st1 st2
      intro l hl
      cases hstep with
      | listStep p env =>
        rcases listAsset_spec st1 p env with ⟨e, heq⟩ | ⟨hpos, heq⟩
        · rw [heq] at hl
          exact ih l hl
        · rw [heq] at hl
          rcases values_mapSet hl with rfl | hmem
          · simpa using by omega
          · exact ih l hmem
      | buyStep buyer lid sa env =>
        rcases buyAsset_spec st1 buyer lid sa env with ⟨e, heq⟩ | ⟨l0, res0, hget, _, _, heq⟩
        · rw [heq] at hl
          exact ih l hl
        · rw [heq] at hl
          rcases values_mapSet hl with rfl | hmem
          · exact ih l0 (mapGet_mem hget)
          · exact ih l hmem
      | cancelStep sa lid =>
        rcases cancelListing_spec st1 sa lid with ⟨e, heq⟩ | ⟨l0, hget, _, _, heq⟩
        · rw [heq] at hl
          exact ih l hl
        · rw [heq] at hl
          rcases values_mapSet hl with rfl | hmem
          · exact ih l0 (mapGet_mem hget)
          · exact ih l hmem

/-- Witness for C9: a concrete zero-price `listAsset` call fails with
`priceNotPositive` and leaves the empty registry empty; the empty registry
is reachable and (vacuously) price-positive. -/
theorem price_positive_enforced_witness :
    listAsset [] ⟨"S", 7, 0, none, none⟩ ⟨fun _ => true, .ok (some 1), 5⟩ =
      (.error .priceNotPositive, []) ∧
    (∀ l ∈ listingValues [], 0 < l.price) :=
  ⟨(price_positive_enforced.1 [] ⟨"S", 7, 0, none, none⟩
      ⟨fun _ => true, .ok (some 1), 5⟩ (by decide)).1,
   price_positive_enforced.2 [] Relation.ReflTransGen.refl⟩


/-- Counterexample to claim C3 as stated: for a listing with a royalty leg
the settlement group has 3 transactions, yet `calculateTotalCost` (and the
`buyAsset` funds check) budgets the minimum network fee times 2, not times
the settlement transaction count. -/
theorem total_cost_fee_multiplier_cex :
    calculateTotalCost [("L", ⟨"L", 1, "S", 5000000, some "R", some 5, 0, .active⟩)] "L" =
      .ok 5252000 ∧
    royaltyAmountOf ⟨"L", 1, "S", 5000000, some "R", some 5, 0, .active⟩ = 250000 ∧
    (marketplacePurchase (fun _ => true) (.ok "T") "B" "S" 1 5000000
        (some "R") (some 250000)).map (fun r => r.txns.length) = .ok 3 ∧
    (5252000 : Int) ≠ 5000000 + 250000 + ALGORAND_MIN_TX_FEE * 3 := by
  refine ⟨rfl, by decide, rfl, by decide⟩

/-- Claim C3 (amended): `calculateTotalCost` returns
price + royalty + `ALGORAND_MIN_TX_FEE` × 2 — the fee multiplier is the
fixed constant 2 regardless of the settlement leg count — and `buyAsset`
requires the buyer's balance to cover exactly this same total, failing with
the `InsufficientFunds`-kind error otherwise. -/
theorem total_cost_and_funds_check_amended :
    (∀ st lid l, mapGet st lid = some l →
        calculateTotalCost st lid =
          .ok (l.price + royaltyAmountOf l + ALGORAND_MIN_TX_FEE * 2))
    ∧ (∀ st buyer lid sa env l bal, mapGet st lid = some l →
        l.status = Status.active → sa = l.seller →
        env.optInQuery = .ok true → env.balanceQuery = .ok bal →
        bal < l.price + royaltyAmountOf l + ALGORAND_MIN_TX_FEE * 2 →
        buyAsset st buyer lid sa env =
          (.error (.insufficientFunds
            (l.price + royaltyAmountOf l + ALGORAND_MIN_TX_FEE * 2)), st) ∧
        (MarketError.insufficientFunds
          (l.price + royaltyAmountOf l + ALGORAND_MIN_TX_FEE * 2)).kind =
          ErrorKind.insufficientFunds) := by
  constructor
  · intro st lid l hget
    unfold calculateTotalCost
    simp only [hget]
  · intro st buyer lid sa env l bal hget hstat hsa hopt hbal hlt
    exact ⟨buyAsset_funds hget hstat hsa hopt hbal hlt, rfl⟩

/-- Witness for the amended C3: the concrete total for a 5-percent royalty
listing, and the concrete `InsufficientFunds` failure of an underfunded
buyer. -/
theorem total_cost_and_funds_check_amended_witness :
    calculateTotalCost [("L", ⟨"L", 1, "S", 5000000, some "R", some 5, 0, .active⟩)] "L" =
      .ok ((5000000 : Int) + royaltyAmountOf ⟨"L", 1, "S", 5000000, some "R", some 5, 0, .active⟩ +
        ALGORAND_MIN_TX_FEE * 2) ∧
    buyAsset [("L", ⟨"L", 1, "S", 5000000, some "R", some 5, 0, .active⟩)] "B" "L" "S"
      ⟨.ok true, .ok (), .ok 100, fun _ => true, .ok "TX"⟩ =
      (.error (.insufficientFunds ((5000000 : Int) +
        royaltyAmountOf ⟨"L", 1, "S", 5000000, some "R", some 5, 0, .active⟩ +
        ALGORAND_MIN_TX_FEE * 2)),
       [("L", ⟨"L", 1, "S", 5000000, some "R", some 5, 0, .active⟩)]) :=
  ⟨total_cost_and_funds_check_amended.1
      [("L", ⟨"L", 1, "S", 5000000, some "R", some 5, 0, .active⟩)] "L"
      ⟨"L", 1, "S", 5000000, some "R", some 5, 0, .active⟩ rfl,
   (total_cost_and_funds_check_amended.2
      [("L", ⟨"L", 1, "S", 5000000, some "R", some 5, 0, .active⟩)] "B" "L" "S"
      ⟨.ok true, .ok (), .ok 100, fun _ => true, .ok "TX"⟩
      ⟨"L", 1, "S", 5000000, some "R", some 5, 0, .active⟩ 100
      rfl rfl rfl rfl rfl (by decide)).1⟩

/-- Counterexample to claim C4 as stated: two distinct successful
`listAsset` calls made with the same asset id during the same `Date.now()`
millisecond return the same listing id, and the second call overwrites the
first listing, leaving the registry size at 1 instead of growing by one. -/
theorem listing_id_collision_cex :
    listAsset [] ⟨"S", 7, 10, none, none⟩ ⟨fun _ => true, .ok (some 1), 5⟩ =
      (.ok "listing_7_5",
       [("listing_7_5", ⟨"listing_7_5", 7, "S", 10, none, none, 5, .active⟩)]) ∧
    listAsset [("listing_7_5", ⟨"listing_7_5", 7, "S", 10, none, none, 5, .active⟩)]
      ⟨"S", 7, 10, none, none⟩ ⟨fun _ => true, .ok (some 1), 5⟩ =
      (.ok "listing_7_5",
       [("listing_7_5", ⟨"listing_7_5", 7, "S", 10, none, none, 5, .active⟩)]) ∧
    ([("listing_7_5", ⟨"listing_7_5", 7, "S", 10, none, none, 5, .active⟩)] : Registry).length
      = 1 := by
  refine ⟨rfl, rfl, rfl⟩

/-- Claim C4 (amended): the generated id is
`listing_` + assetId + `_` + `Date.now()`; ids from distinct
(assetId, timestamp) pairs are distinct, so two successful `listAsset`
calls return different ids whenever their (assetId, timestamp) pairs
differ; a successful call grows the registry by exactly one when the
generated id is not already a key, and otherwise overwrites the existing
listing, leaving the size unchanged. -/
theorem listing_id_uniqueness_amended :
    (∀ a1 n1 a2 n2 : Nat, mkListingId a1 n1 = mkListingId a2 n2 → a1 = a2 ∧ n1 = n2)
    ∧ (∀ st p env lid st', listAsset st p env = (.ok lid, st') →
        lid = mkListingId p.assetId env.now ∧
        (mapGet st lid = none → st'.length = st.length + 1) ∧
        (∀ w, mapGet st lid = some w → st'.length = st.length))
    ∧ (∀ st1 p1 env1 lid1 r1 st2 p2 env2 lid2 r2,
        listAsset st1 p1 env1 = (.ok lid1, r1) → listAsset st2 p2 env2 = (.ok lid2, r2) →
        (p1.assetId ≠ p2.assetId ∨ env1.now ≠ env2.now) → lid1 ≠ lid2) := by
  have hok : ∀ st (p : ListParams) (env : ListEnv) lid st',
      listAsset st p env = (.ok lid, st') →
      lid = mkListingId p.assetId env.now ∧
      (mapGet st lid = none → st'.length = st.length + 1) ∧
      (∀ w, mapGet st lid = some w → st'.length = st.length) := by
    intro st p env lid st' h
    rcases listAsset_spec st p env with ⟨e, heq⟩ | ⟨_, heq⟩
    · rw [heq] at h
      exact absurd (congrArg Prod.fst h) (by simp)
    · rw [heq] at h
      obtain rfl : mkListingId p.assetId env.now = lid := by
        simpa using congrArg Prod.fst h
      have hst : st' = mapSet st (mkListingId p.assetId env.now) _ :=
        (by simpa using (congrArg Prod.snd h).symm)
      refine ⟨rfl, ?_, ?_⟩
      · intro hnone
        rw [hst]
        exact mapSet_length_of_none hnone
      · intro w hsome
        rw [hst]
        exact mapSet_length_of_some hsome
  refine ⟨fun a1 n1 a2 n2 h => mkListingId_inj h, hok, ?_⟩
  intro st1 p1 env1 lid1 r1 st2 p2 env2 lid2 r2 h1 h2 hne
  obtain ⟨rfl, -⟩ := hok st1 p1 env1 lid1 r1 h1
  obtain ⟨rfl, -⟩ := hok st2 p2 env2 lid2 r2 h2
  intro heq
  rcases hne with hne | hne
  · exact hne (mkListingId_inj heq).1
  · exact hne (mkListingId_inj heq).2

/-- Witness for the amended C4: two concrete successful calls in different
milliseconds yield different ids, and a fresh-id call grows the registry
from 0 to 1 entries. -/
theorem listing_id_uniqueness_amended_witness :
    ("listing_7_5" : String) ≠ "listing_7_6" ∧
    (mapGet [] "listing_7_5" = none →
      ([("listing_7_5", ⟨"listing_7_5", 7, "S", 10, none, none, 5, .active⟩)] : Registry).length
        = ([] : Registry).length + 1) :=
  ⟨listing_id_uniqueness_amended.2.2 [] ⟨"S", 7, 10, none, none⟩
      ⟨fun _ => true, .ok (some 1), 5⟩ "listing_7_5"
      [("listing_7_5", ⟨"listing_7_5", 7, "S", 10, none, none, 5, .active⟩)]
      [] ⟨"S", 7, 10, none, none⟩ ⟨fun _ => true, .ok (some 1), 6⟩ "listing_7_6"
      [("listing_7_6", ⟨"listing_7_6", 7, "S", 10, none, none, 6, .active⟩)]
      rfl rfl (Or.inr (by decide)),
   (listing_id_uniqueness_amended.2.1 [] ⟨"S", 7, 10, none, none⟩
      ⟨fun _ => true, .ok (some 1), 5⟩ "listing_7_5"
      [("listing_7_5", ⟨"listing_7_5", 7, "S", 10, none, none, 5, .active⟩)] rfl).2.1⟩


/-- Counterexample to claim C5 as stated: a `listAsset` call supplying a
royalty recipient but no royalty percentage does not fail — it succeeds and
stores a listing with exactly one of the two royalty fields present. -/
theorem single_royalty_field_accepted_cex :
    listAsset [] ⟨"S", 1, 10, some "R", none⟩ ⟨fun _ => true, .ok (some 1), 0⟩ =
      (.ok "listing_1_0",
       [("listing_1_0", ⟨"listing_1_0", 1, "S", 10, some "R", none, 0, .active⟩)]) ∧
    (⟨"listing_1_0", 1, "S", 10, some "R", none, 0, .active⟩ : Listing).royaltyRecipient =
      some "R" ∧
    (⟨"listing_1_0", 1, "S", 10, some "R", none, 0, .active⟩ : Listing).royaltyPercentage =
      none := by
  refine ⟨rfl, rfl, rfl⟩

/-- Claim C5 (amended): the both-or-neither royalty invariant is NOT
enforced: `listAsset` validates only the percentage range (when the
percentage is present and nonzero) and the recipient's address
well-formedness (when the recipient is present and nonempty); a call
supplying exactly one of the two royalty fields succeeds, stores the
listing with just that field, and such a listing is treated as royalty-free
at purchase time. -/
theorem royalty_field_validation_amended :
    (∀ st (env : ListEnv) seller aid price r amt, ¬ price ≤ 0 →
        (r = "" ∨ env.validAddr r = true) →
        env.holdingQuery = .ok (some amt) → amt ≠ 0 →
        listAsset st ⟨seller, aid, price, some r, none⟩ env =
          (.ok (mkListingId aid env.now),
           mapSet st (mkListingId aid env.now)
             ⟨mkListingId aid env.now, aid, seller, price, some r, none, env.now, .active⟩) ∧
        royaltyAmountOf
          ⟨mkListingId aid env.now, aid, seller, price, some r, none, env.now, .active⟩ = 0)
    ∧ (∀ st (env : ListEnv) seller aid price pct amt, ¬ price ≤ 0 →
        ¬ (pct ≠ 0 ∧ (pct < 0 ∨ 100 < pct)) →
        env.holdingQuery = .ok (some amt) → amt ≠ 0 →
        listAsset st ⟨seller, aid, price, none, some pct⟩ env =
          (.ok (mkListingId aid env.now),
           mapSet st (mkListingId aid env.now)
             ⟨mkListingId aid env.now, aid, seller, price, none, some pct, env.now, .active⟩) ∧
        royaltyAmountOf
          ⟨mkListingId aid env.now, aid, seller, price, none, some pct, env.now, .active⟩ = 0)
    ∧ (∀ st p env, ¬ p.price ≤ 0 → royaltyPctInvalid p.royaltyPercentage = true →
        listAsset st p env = (.error .royaltyPctOutOfRange, st) ∧
        MarketError.royaltyPctOutOfRange.kind = ErrorKind.invalidArgument)
    ∧ (∀ st p env, ¬ p.price ≤ 0 → royaltyPctInvalid p.royaltyPercentage = false →
        royaltyRecipientInvalid env.validAddr p.royaltyRecipient = true →
        listAsset st p env =
          (.error (.invalidRoyaltyRecipient (p.royaltyRecipient.getD "")), st) ∧
        (MarketError.invalidRoyaltyRecipient (p.royaltyRecipient.getD "")).kind =
          ErrorKind.invalidArgument) := by
  refine ⟨?_, ?_, ?_, ?_⟩
  · intro st env seller aid price r amt hpr hr hq hamt
    constructor
    · unfold listAsset
      rw [if_neg hpr]
      have hpct : royaltyPctInvalid (none : Option Int) = false := rfl
      rw [hpct]
      have hrec : royaltyRecipientInvalid env.validAddr (some r) = false := by
        rcases hr with hr | hr
        · simp [royaltyRecipientInvalid, hr]
        · simp [royaltyRecipientInvalid, hr]
      rw [hrec]
      simp only [Bool.false_eq_true, if_false, hq]
      rw [if_neg hamt]
    · simp [royaltyAmountOf]
  · intro st env seller aid price pct amt hpr hpct hq hamt
    constructor
    · unfold listAsset
      rw [if_neg hpr]
      have hpct' : royaltyPctInvalid (some pct) = false := by
        simp [royaltyPctInvalid]
        omega
      rw [hpct']
      have hrec : royaltyRecipientInvalid env.validAddr (none : Option String) = false := rfl
      rw [hrec]
      simp only [Bool.false_eq_true, if_false, hq]
      rw [if_neg hamt]
    · simp [royaltyAmountOf]
  · intro st p env hpr hpct
    constructor
    · unfold listAsset
      rw [if_neg hpr, hpct]
      simp
    · rfl
  · intro st p env hpr hpct hrec
    constructor
    · unfold listAsset
      rw [if_neg hpr, hpct, hrec]
      simp
    · rfl

/-- Witness for the amended C5: the concrete recipient-only call from the
counterexample goes through the amended acceptance statement, and a
concrete percentage of 110 with unit-price listing is rejected. -/
theorem royalty_field_validation_amended_witness :
    (listAsset [] ⟨"S", 1, 10, some "R", none⟩ ⟨fun _ => true, .ok (some 1), 0⟩ =
      (.ok (mkListingId 1 0),
       mapSet [] (mkListingId 1 0) ⟨mkListingId 1 0, 1, "S", 10, some "R", none, 0, .active⟩) ∧
     royaltyAmountOf ⟨mkListingId 1 0, 1, "S", 10, some "R", none, 0, .active⟩ = 0) ∧
    listAsset [] ⟨"S", 1, 10, none, some 110⟩ ⟨fun _ => true, .ok (some 1), 0⟩ =
      (.error .royaltyPctOutOfRange, []) :=
  ⟨royalty_field_validation_amended.1 [] ⟨fun _ => true, .ok (some 1), 0⟩
      "S" 1 10 "R" 1 (by decide) (Or.inr rfl) rfl (by decide),
   (royalty_field_validation_amended.2.2.1 [] ⟨"S", 1, 10, none, some 110⟩
      ⟨fun _ => true, .ok (some 1), 0⟩ (by decide) (by decide)).1⟩

/-- Counterexample to claim C6 as stated: `calculateTotalCost` on an
unknown listing id raises an error (`Listing ... not found`) instead of
returning a value. -/
theorem unknown_id_total_cost_error_cex :
    calculateTotalCost [] "missing" = .error (.listingNotFound "missing") := rfl

/-- Claim C6 (amended): `getListing`, `getActiveListings`,
`getListingsBySeller` and `getListingsByAsset` are read-only total
functions of the registry (they return for every input; unknown ids or
non-matching filters just give `none` / empty lists, characterized below);
`calculateTotalCost` is also read-only and returns a value for every
stored id, but on an unknown id it throws the `NotFound` error. -/
theorem queries_read_only_amended :
    (∀ st lid, getListing st lid = mapGet st lid)
    ∧ (∀ st l, l ∈ getActiveListings st ↔ l ∈ listingValues st ∧ l.status = Status.active)
    ∧ (∀ st s l, l ∈ getListingsBySeller st s ↔ l ∈ listingValues st ∧ l.seller = s)
    ∧ (∀ st a l, l ∈ getListingsByAsset st a ↔ l ∈ listingValues st ∧ l.assetId = a)
    ∧ (∀ st lid l, mapGet st lid = some l →
        calculateTotalCost st lid =
          .ok (l.price + royaltyAmountOf l + ALGORAND_MIN_TX_FEE * 2))
    ∧ (∀ st lid, mapGet st lid = none →
        calculateTotalCost st lid = .error (.listingNotFound lid) ∧
        (MarketError.listingNotFound lid).kind = ErrorKind.notFound) := by
  refine ⟨fun st lid => rfl, ?_, ?_, ?_, ?_, ?_⟩
  · intro st l
    simp [getActiveListings, List.mem_filter]
  · intro st s l
    simp [getListingsBySeller, List.mem_filter]
  · intro st a l
    simp [getListingsByAsset, List.mem_filter]
  · intro st lid l hget
    unfold calculateTotalCost
    simp only [hget]
  · intro st lid hget
    constructor
    · unfold calculateTotalCost
      simp only [hget]
    · rfl

/-- Witness for the amended C6: concrete query results on a one-listing
registry and the concrete `NotFound` failure on an unknown id. -/
theorem queries_read_only_amended_witness :
    calculateTotalCost [("L", ⟨"L", 1, "S", 5000000, some "R", some 5, 0, .active⟩)] "L" =
      .ok ((5000000 : Int) + royaltyAmountOf ⟨"L", 1, "S", 5000000, some "R", some 5, 0, .active⟩ +
        ALGORAND_MIN_TX_FEE * 2) ∧
    (calculateTotalCost [] "missing" = .error (.listingNotFound "missing") ∧
     (MarketError.listingNotFound "missing").kind = ErrorKind.notFound) :=
  ⟨queries_read_only_amended.2.2.2.2.1
      [("L", ⟨"L", 1, "S", 5000000, some "R", some 5, 0, .active⟩)] "L"
      ⟨"L", 1, "S", 5000000, some "R", some 5, 0, .active⟩ rfl,
   queries_read_only_amended.2.2.2.2.2 [] "missing" rfl⟩


lemma royaltyCond_iff (rr : Option String) (ra : Option Int) :
    (strTruthy rr && intTruthy ra && decide (0 < ra.getD 0)) = true ↔
    (∃ r, rr = some r ∧ r ≠ "") ∧ (∃ a, ra = some a ∧ 0 < a) := by
  cases rr with
  | none => simp [strTruthy]
  | some r =>
    cases ra with
    | none => simp [strTruthy, intTruthy]
    | some a =>
      simp only [strTruthy, intTruthy, Option.getD_some, Bool.and_eq_true, decide_eq_true_eq,
        Option.some.injEq]
      constructor
      · rintro ⟨⟨h1, -⟩, h3⟩
        exact ⟨⟨r, rfl, h1⟩, ⟨a, rfl, h3⟩⟩
      · rintro ⟨⟨r', hr', h1⟩, ⟨a', ha', h3⟩⟩
        cases hr'
        cases ha'
        exact ⟨⟨h1, by omega⟩, h3⟩

/-- Claim C7: a successful `marketplacePurchase` group is, in order, the
buyer→seller payment of the price, the seller→buyer transfer of exactly 1
unit of the asset, and — included iff both a (nonempty) royalty recipient
and a positive royalty amount are supplied — the buyer→recipient royalty
payment; the signed group pairs each leg, by position, with its sending
party as signer (buyer, seller, and buyer again for the royalty leg). -/
theorem purchase_group_legs_and_signers :
    ∀ va submit buyer seller aid price rr ra res,
      marketplacePurchase va submit buyer seller aid price rr ra = .ok res →
      res.signed.map SignedTxn.txn = res.txns ∧
      (∀ s_, s_ ∈ res.signed → s_.signer = s_.txn.fromAddr) ∧
      ((∃ r, rr = some r ∧ r ≠ "") ∧ (∃ a, ra = some a ∧ 0 < a) →
        res.txns = [mkPayment buyer seller price none, mkAssetTransfer seller buyer aid 1,
          mkPayment buyer (rr.getD "") (ra.getD 0) (some "Royalty payment")] ∧
        res.signed.map SignedTxn.signer = [buyer, seller, buyer]) ∧
      (¬ ((∃ r, rr = some r ∧ r ≠ "") ∧ (∃ a, ra = some a ∧ 0 < a)) →
        res.txns = [mkPayment buyer seller price none, mkAssetTransfer seller buyer aid 1] ∧
        res.signed.map SignedTxn.signer = [buyer, seller]) := by
  intro va submit buyer seller aid price rr ra res h
  unfold marketplacePurchase at h
  by_cases hc : (strTruthy rr && intTruthy ra && decide (0 < ra.getD 0)) = true
  · rw [if_pos hc] at h
    split at h
    · exact absurd h (by simp)
    · split at h
      · exact absurd h (by simp)
      · injection h with h'
        subst h'
        refine ⟨rfl, ?_, ?_, ?_⟩
        · intro s_ hs
          simp only [List.mem_cons, List.not_mem_nil, or_false] at hs
          rcases hs with rfl | rfl | rfl <;> rfl
        · intro _
          exact ⟨rfl, rfl⟩
        · intro hn
          exact absurd ((royaltyCond_iff rr ra).mp hc) hn
  · rw [if_neg hc] at h
    split at h
    · exact absurd h (by simp)
    · injection h with h'
      subst h'
      refine ⟨rfl, ?_, ?_, ?_⟩
      · intro s_ hs
        simp only [List.mem_cons, List.not_mem_nil, or_false] at hs
        rcases hs with rfl | rfl <;> rfl
      · intro hcon
        exact absurd ((royaltyCond_iff rr ra).mpr hcon) hc
      · intro _
        exact ⟨rfl, rfl⟩

/-- Witness for C7: a concrete successful purchase with a royalty leg has
exactly the three legs in order with signers buyer, seller, buyer. -/
theorem purchase_group_legs_and_signers_witness :
    (⟨[mkPayment "B" "S" 100 none, mkAssetTransfer "S" "B" 1 1,
       mkPayment "B" "R" 5 (some "Royalty payment")],
      [⟨mkPayment "B" "S" 100 none, "B"⟩, ⟨mkAssetTransfer "S" "B" 1 1, "S"⟩,
       ⟨mkPayment "B" "R" 5 (some "Royalty payment"), "B"⟩], "T"⟩ :
        PurchaseResult).txns =
      [mkPayment "B" "S" 100 none, mkAssetTransfer "S" "B" 1 1,
       mkPayment "B" ((some "R").getD "") ((some (5 : Int)).getD 0) (some "Royalty payment")] ∧
    (⟨[mkPayment "B" "S" 100 none, mkAssetTransfer "S" "B" 1 1,
       mkPayment "B" "R" 5 (some "Royalty payment")],
      [⟨mkPayment "B" "S" 100 none, "B"⟩, ⟨mkAssetTransfer "S" "B" 1 1, "S"⟩,
       ⟨mkPayment "B" "R" 5 (some "Royalty payment"), "B"⟩], "T"⟩ :
        PurchaseResult).signed.map SignedTxn.signer = ["B", "S", "B"] :=
  (purchase_group_legs_and_signers (fun _ => true) (.ok "T") "B" "S" 1 100
      (some "R") (some 5) _ rfl).2.2.1
    ⟨⟨"R", rfl, by decide⟩, ⟨5, rfl, by decide⟩⟩

lemma marketplacePurchase_royalty_leg {va : String → Bool}
    {submit : Except MarketError String} {b s : String} {aid : Nat} {pr amt : Int}
    {rr : Option String} {res : PurchaseResult}
    (h : marketplacePurchase va submit b s aid pr rr (some amt) = .ok res)
    (hlen : res.txns.length = 3) :
    res.txns.getLast? = some (mkPayment b (rr.getD "") amt (some "Royalty payment")) := by
  unfold marketplacePurchase at h
  split at h
  · split at h
    · exact absurd h (by simp)
    · split at h
      · exact absurd h (by simp)
      · injection h with h'
        subst h'
        rfl
  · split at h
    · exact absurd h (by simp)
    · injection h with h'
      subst h'
      simp at hlen

/-- Claim C8: for a stored listing whose royalty fields are present (and,
per JavaScript truthiness, effective: nonempty recipient, nonzero
percentage), the royalty charged by `buyAsset` is exact integer floor
division `floor(price * pct / 100)`; in a successful purchase whose
settlement group has the royalty leg, that leg's amount equals this value;
in particular price = 5,000,000 with pct = 5 gives exactly 250,000. -/
theorem royalty_floor_division :
    (∀ l r pct, l.royaltyRecipient = some r → r ≠ "" →
        l.royaltyPercentage = some pct → pct ≠ 0 →
        royaltyAmountOf l = Int.fdiv (l.price * pct) 100)
    ∧ (∀ st buyer lid sa env l res st' t, mapGet st lid = some l →
        buyAsset st buyer lid sa env = (.ok res, st') →
        res.txns.getLast? = some t → res.txns.length = 3 →
        t.amount = royaltyAmountOf l)
    ∧ royaltyAmountOf ⟨"L", 1, "S", 5000000, some "R", some 5, 0, .active⟩ = 250000
    ∧ Int.fdiv (5000000 * 5) 100 = 250000 := by
  refine ⟨?_, ?_, by decide, by decide⟩
  · intro l r pct hrr hr hpct hpct0
    unfold royaltyAmountOf
    rw [hrr, hpct]
    simp [hr, hpct0]
  · intro st buyer lid sa env l res st' t hget hbuy hlast hlen
    rcases buyAsset_spec st buyer lid sa env with ⟨e, heq⟩ | ⟨l0, res0, hget0, _, hpurch, heq⟩
    · rw [heq] at hbuy
      exact absurd (congrArg Prod.fst hbuy) (by simp)
    · rw [heq] at hbuy
      obtain rfl : res0 = res := by simpa using congrArg Prod.fst hbuy
      rw [hget] at hget0
      injection hget0 with hl
      subst hl
      have h3 := marketplacePurchase_royalty_leg hpurch hlen
      rw [hlast] at h3
      injection h3 with h3'
      rw [h3']
      rfl

/-- Witness for C8: the floor-division formula applied to the concrete
5-percent, 5,000,000-microAlgo listing yields 250,000. -/
theorem royalty_floor_division_witness :
    royaltyAmountOf ⟨"L", 1, "S", 5000000, some "R", some 5, 0, .active⟩ =
      Int.fdiv ((⟨"L", 1, "S", 5000000, some "R", some 5, 0, .active⟩ : Listing).price * 5) 100 :=
  royalty_floor_division.1 ⟨"L", 1, "S", 5000000, some "R", some 5, 0, .active⟩
    "R" 5 rfl (by decide) rfl (by decide)

/-- Claim C10: `executeAtomicGroup` with an empty transaction list always
fails — for every signer list and every submission oracle, so before any
grouping, signing or submission — with the `No transactions provided`
error (re-wrapped by the catch-all), even though the empty list satisfies
the one-to-one transaction/signer count contract. -/
theorem empty_group_rejected :
    (∀ signers submit, executeAtomicGroup [] signers submit =
        .error (.groupFailed .noTransactions))
    ∧ ([] : List Txn).length = ([] : List String).length
    ∧ (MarketError.groupFailed .noTransactions).message =
        "Atomic group execution failed: No transactions provided" := by
  refine ⟨fun signers submit => rfl, rfl, rfl⟩

end MarketPlay
